import Mathlib

/-!
Verification of the assistant session service
(`src/main/services/assistantService/index.ts`).

The service class is embedded shallowly: its mutable fields become a
`ServiceState` record, every listener body becomes a function from the
state and the event payload to an `ExecResult` holding the successor
state, the ordered trace of observable effects (IPC notifications sent
to the renderer, host-handler invocations, log lines, conversation
commands, adapter start commands), and the exception, if any, that
escapes the listener.  Host event handlers may throw; this is modelled
by a `HandlerSpec` function mapping each handler invocation to the
exception it raises (`none` meaning normal return).
-/

/-- Authentication portion of the service configuration (`config.auth`
in the constructor); the token-input callback is modelled separately. -/
structure AuthConfig where
  keyFilePath : String
  savedTokensPath : String
deriving DecidableEq

/-- Conversation portion of the service configuration
(`config.conversation` in the constructor). -/
structure ConversationConfig where
  encodingIn : String
  sampleRateIn : Nat
  encodingOut : String
  sampleRateOut : Nat
  lang : String
  deviceModelId : String
  deviceId : String
  textQuery : Option String
  isNew : Bool
  screenIsOn : Bool
deriving DecidableEq

/-- The `AssistantServiceConfig` record held in `this.config`. -/
structure AssistantServiceConfig where
  auth : AuthConfig
  conversation : ConversationConfig
deriving DecidableEq

/-- The process-wide `global.appConfig` object, read by the constructor
and by the `ended` listener. -/
structure AppConfig where
  keyFilePath : String
  savedTokensPath : String
  language : String
  forceNewConversation : Bool
  enableMicOnImmediateResponse : Bool
deriving DecidableEq

/-- Transcription payload delivered by the adapter: the code reads the
fields `transcriptionObject.transcription` and `transcriptionObject.done`. -/
structure TranscriptionObject where
  transcription : String
  done : Bool
deriving DecidableEq

/-- Screen payload delivered by the adapter: a format tag plus a byte
buffer (`screenData.data`), bytes modelled as a list of naturals. -/
structure ScreenData where
  format : String
  data : List Nat
deriving DecidableEq

/-- Decoding of a byte buffer to text, modelling `Buffer.toString()`
one byte per character. -/
def bufToString (bs : List Nat) : String :=
  String.mk (bs.map Char.ofNat)

/-- Mutable fields of the `AssistantService` instance.  The adapter and
the conversation handle are opaque; a conversation handle is identified
by a natural number. -/
structure ServiceState where
  config : AssistantServiceConfig
  assistantApiDelegate : Option Unit
  conversation : Option Nat
deriving DecidableEq

/-- A host-handler invocation performed by the service
(`this.handlers.onX(...)` calls). -/
inductive HandlerCall
  | onQuery (text : String)
  | onScreenData (text : String)
  | onAudioData (bytes : List Nat)
  | onConversationEnded
deriving DecidableEq

/-- Payload of an IPC message sent to the renderer. -/
inductive Payload
  | unit
  | transcription (t : TranscriptionObject)
  | screen (format : String) (data : String)
  | oauth (authUrl : String)
deriving DecidableEq

/-- Observable effects performed by the service, in program order:
IPC sends and listener registrations on the broker, host-handler
invocations, console error logs, writes and end signals on the
conversation handle, and start commands issued to the adapter. -/
inductive Effect
  | send (channel : String) (payload : Payload)
  | subscribe (channel : String)
  | call (c : HandlerCall)
  | logError
  | convWrite (conv : Nat) (bytes : List Nat)
  | convEnd (conv : Nat)
  | start (cfg : ConversationConfig)
deriving DecidableEq

/-- Behaviour of the host-supplied handler set: for each invocation,
the exception it throws (`none` for a normal return). -/
def HandlerSpec : Type :=
  HandlerCall → Option String

/-- Handler set that never throws. -/
def noThrow : HandlerSpec :=
  fun _ => none

/-- Result of running one listener body: successor state, the trace of
effects performed, and the exception escaping the listener, if any. -/
structure ExecResult where
  state : ServiceState
  effects : List Effect
  thrown : Option String
deriving DecidableEq

/-- Events emitted by an adapter conversation object, as subscribed in
`handleConversation`. -/
inductive ConvEvent
  | audioData (data : List Nat)
  | transcription (t : TranscriptionObject)
  | screenData (sd : ScreenData)
  | endOfUtterance
  | ended (error : Option String) (shouldContinue : Bool)
  | error (e : String)
deriving DecidableEq

/-- The `AssistantService` constructor: builds the configuration from
`global.appConfig`, with the fixed audio defaults, `textQuery`
undefined, and no adapter or conversation yet. -/
def mkService (app : AppConfig) : ServiceState :=
  { config :=
      { auth :=
          { keyFilePath := app.keyFilePath
            savedTokensPath := app.savedTokensPath }
        conversation :=
          { encodingIn := "LINEAR16"
            sampleRateIn := 16000
            encodingOut := "MP3"
            sampleRateOut := 24000
            lang := app.language
            deviceModelId := ""
            deviceId := ""
            textQuery := none
            isNew := app.forceNewConversation
            screenIsOn := true } }
    assistantApiDelegate := none
    conversation := none }

/-- The state change performed by `AssistantService.initialize` when
adapter construction succeeds: the adapter delegate is set.  When the
construction throws, the exception is caught and logged and the
delegate stays unset, i.e. the state is unchanged. -/
def initService (st : ServiceState) : ServiceState :=
  { st with assistantApiDelegate := some () }

/-- The message of the error thrown by `invokeAssistant` when the
adapter delegate is undefined. -/
def uninitializedMessage : String :=
  "Cannot trigger \"start\" event for assistant as the initialization failed"

/-- Embeds `AssistantService.invokeAssistant`: throws when the adapter
delegate is undefined; otherwise sets `config.conversation.textQuery`
to the argument when it is truthy (defined and non-empty) and resets it
to undefined otherwise, then issues the start command with the updated
conversation configuration. -/
def invokeAssistant (st : ServiceState) (textQuery : Option String) : ExecResult :=
  match st.assistantApiDelegate with
  | none => ⟨st, [], some uninitializedMessage⟩
  | some _ =>
    let newTextQuery : Option String :=
      match textQuery with
      | some s => if s == "" then none else some s
      | none => none
    let cfg := st.config
    let conv := cfg.conversation
    let st' : ServiceState :=
      { st with
          config := { cfg with conversation := { conv with textQuery := newTextQuery } } }
    ⟨st', [Effect.start st'.config.conversation], none⟩

/-- Embeds the `assistant:invoke` host-command listener registered in
`initialize`: sends the stop-playback notification, calls
`invokeAssistant(query)` (whose exception, if thrown, escapes the
listener before any further effect), then calls
`handlers.onQuery(query ?? "")`. -/
def invokeCommand (h : HandlerSpec) (st : ServiceState) (query : Option String) : ExecResult :=
  let pre := [Effect.send "assistant:stopAudioResponsePlayback" Payload.unit]
  let r := invokeAssistant st query
  match r.thrown with
  | some e => ⟨r.state, pre ++ r.effects, some e⟩
  | none =>
    let q := query.getD ""
    ⟨r.state, pre ++ r.effects ++ [Effect.call (HandlerCall.onQuery q)],
      h (HandlerCall.onQuery q)⟩

/-- Embeds the `assistant:micAudioData` host-command listener: writes
the buffer to the active conversation via optional chaining, a no-op
when no conversation is active. -/
def micAudioDataCommand (st : ServiceState) (audioBuffer : List Nat) : ExecResult :=
  match st.conversation with
  | none => ⟨st, [], none⟩
  | some c => ⟨st, [Effect.convWrite c audioBuffer], none⟩

/-- Embeds the `assistant:endConversation` host-command listener:
`this.conversation?.end()` followed by `this.conversation = undefined`. -/
def endConversationCommand (st : ServiceState) : ExecResult :=
  match st.conversation with
  | none => ⟨{ st with conversation := none }, [], none⟩
  | some c => ⟨{ st with conversation := none }, [Effect.convEnd c], none⟩

/-- Embeds `AssistantService.handleConversation` as invoked by the
adapter `started` event: stores the conversation handle.  The listener
registrations it performs are embedded by `dispatchConvEvent`. -/
def handleConversation (st : ServiceState) (conv : Nat) : ServiceState :=
  { st with conversation := some conv }

/-- Embeds the bodies of the five content and lifecycle listeners
registered by `handleConversation` on the conversation object, plus its
`error` listener.  A handler exception interrupts the listener at the
point of the call (effects up to and including the call are performed)
and escapes it uncaught. -/
def dispatchConvEvent (app : AppConfig) (h : HandlerSpec) (st : ServiceState) :
    ConvEvent → ExecResult
  | ConvEvent.audioData data =>
    let audioBuffer := data
    ⟨st, [Effect.call (HandlerCall.onAudioData audioBuffer)],
      h (HandlerCall.onAudioData audioBuffer)⟩
  | ConvEvent.transcription t =>
    if t.done then
      ⟨st, [Effect.send "assistant:transcription" (Payload.transcription t),
            Effect.call (HandlerCall.onQuery t.transcription)],
        h (HandlerCall.onQuery t.transcription)⟩
    else
      ⟨st, [Effect.send "assistant:transcription" (Payload.transcription t)], none⟩
  | ConvEvent.screenData sd =>
    let text := bufToString sd.data
    ⟨st, [Effect.send "assistant:screenData" (Payload.screen sd.format text),
          Effect.call (HandlerCall.onScreenData text)],
      h (HandlerCall.onScreenData text)⟩
  | ConvEvent.endOfUtterance =>
    ⟨st, [Effect.send "assistant:endOfUtterance" Payload.unit], none⟩
  | ConvEvent.ended error shouldContinue =>
    let logEffs := if error.isSome then [Effect.logError] else []
    let pre := logEffs ++
      [Effect.send "assistant:conversationEnded" Payload.unit,
       Effect.call HandlerCall.onConversationEnded]
    match h HandlerCall.onConversationEnded with
    | some e => ⟨st, pre, some e⟩
    | none =>
      if shouldContinue && app.enableMicOnImmediateResponse then
        ⟨st, pre ++ [Effect.send "assistant:startMic" Payload.unit], none⟩
      else
        ⟨st, pre, none⟩
  | ConvEvent.error _ => ⟨st, [Effect.logError], none⟩

/-- Dispatches a sequence of conversation events in order, threading
the state and accumulating effects; an uncaught exception stops the
sequence. -/
def dispatchSeq (app : AppConfig) (h : HandlerSpec) (st : ServiceState) :
    List ConvEvent → List Effect × Option String
  | [] => ([], none)
  | ev :: rest =>
    let r := dispatchConvEvent app h st ev
    match r.thrown with
    | some e => (r.effects, some e)
    | none =>
      let tail := dispatchSeq app h r.state rest
      (r.effects ++ tail.1, tail.2)

/-- Byte buffers delivered to `handlers.onAudioData`, in trace order. -/
def audioCallArgs (effs : List Effect) : List (List Nat) :=
  effs.filterMap fun e =>
    match e with
    | Effect.call (HandlerCall.onAudioData b) => some b
    | _ => none

/-- Number of IPC sends on a given channel in a trace. -/
def countSend (ch : String) : List Effect → Nat
  | [] => 0
  | Effect.send c _ :: rest => (if c == ch then 1 else 0) + countSend ch rest
  | _ :: rest => countSend ch rest

/-- Number of broker subscriptions on a given channel in a trace. -/
def countSubscribe (ch : String) : List Effect → Nat
  | [] => 0
  | Effect.subscribe c :: rest => (if c == ch then 1 else 0) + countSubscribe ch rest
  | _ :: rest => countSubscribe ch rest

/-- Number of invocations of a given handler call in a trace. -/
def countCall (c : HandlerCall) : List Effect → Nat
  | [] => 0
  | Effect.call c2 :: rest => (if c2 == c then 1 else 0) + countCall c rest
  | _ :: rest => countCall c rest

/-- Embeds `AssistantService.tokenInputHandler`: publishes the OAuth
prompt notification carrying the authorization URL, then registers one
subscription on the inbound `assistant:oauthCode` command. -/
def tokenInputHandler (authUrl : String) : List Effect :=
  [Effect.send "assistant:showOauthTokenPrompt" (Payload.oauth authUrl),
   Effect.subscribe "assistant:oauthCode"]

/-- Modelled from the spec: `MainIpcBroker.onRendererEmit`
(main/ipc/main/mainIpcBroker) is code of this repository not under src.
Per the spec, the OAuth relay subscription is satisfied exactly once
per prompt: over a sequence of submitted codes, the supplied validation
callback receives only the first. -/
def oauthCodeDeliveries (submitted : List String) : List String :=
  match submitted with
  | [] => []
  | c :: _ => [c]

/-- Concrete application configuration used in witnesses. -/
def exApp : AppConfig :=
  { keyFilePath := "key.json"
    savedTokensPath := "tokens.json"
    language := "en-US"
    forceNewConversation := false
    enableMicOnImmediateResponse := true }

/-- Concrete state with an initialized adapter and an active
conversation handle 7. -/
def exActiveState : ServiceState :=
  handleConversation (initService (mkService exApp)) 7

/-- Handler set whose audio handler throws. -/
def exThrowHandler : HandlerSpec :=
  fun c =>
    match c with
    | HandlerCall.onAudioData _ => some "handler failure"
    | _ => none

/-- C5: calling `invokeAssistant` when the adapter was never
constructed throws the explicit uninitialized error synchronously,
issues no start command (no effects at all), and leaves the state,
including the configuration and the conversation reference,
unchanged. -/
theorem C5_invokeUninitialized (st : ServiceState) (q : Option String)
    (hun : st.assistantApiDelegate = none) :
    invokeAssistant st q = ⟨st, [], some uninitializedMessage⟩ := by
  simp [invokeAssistant, hun]

/-- C5 witness: on a freshly constructed, never initialized service,
`invokeAssistant` with a concrete query produces exactly the
uninitialized error and nothing else. -/
theorem C5_invokeUninitialized_witness :
    (mkService exApp).assistantApiDelegate = none
    ∧ invokeAssistant (mkService exApp) (some "hello")
        = ⟨mkService exApp, [], some uninitializedMessage⟩ :=
  ⟨rfl, C5_invokeUninitialized (mkService exApp) (some "hello") rfl⟩

/-- C4: with an initialized adapter, `invokeAssistant` with a non-empty
string sets the configuration textQuery to that string and the issued
start command carries it; with no argument or an empty string the
textQuery is reset to unset; and a microphone-only invocation made
after a text invocation starts with textQuery unset, so nothing leaks
across calls. -/
theorem C4_textQueryNoLeak (st : ServiceState) (a : Unit) (q : String)
    (hinit : st.assistantApiDelegate = some a) (hq : q ≠ "") :
    ((invokeAssistant st (some q)).state.config.conversation.textQuery = some q
      ∧ (invokeAssistant st (some q)).effects
          = [Effect.start (invokeAssistant st (some q)).state.config.conversation])
    ∧ ((invokeAssistant st none).state.config.conversation.textQuery = none
      ∧ (invokeAssistant st (some "")).state.config.conversation.textQuery = none
      ∧ (invokeAssistant st none).effects
          = [Effect.start (invokeAssistant st none).state.config.conversation])
    ∧ (invokeAssistant (invokeAssistant st (some q)).state none).state.config.conversation.textQuery
        = none := by
  have hq' : (q == "") = false := by
    simpa using hq
  refine ⟨⟨?_, ?_⟩, ⟨?_, ?_, ?_⟩, ?_⟩ <;>
    simp [invokeAssistant, hinit, hq']

/-- C4 witness: a concrete text invocation sets the textQuery for the
start command and a following microphone invocation starts with it
unset. -/
theorem C4_textQueryNoLeak_witness :
    (invokeAssistant (initService (mkService exApp))
        (some "weather today")).state.config.conversation.textQuery = some "weather today"
    ∧ (invokeAssistant
        (invokeAssistant (initService (mkService exApp)) (some "weather today")).state
        none).state.config.conversation.textQuery = none :=
  ⟨(C4_textQueryNoLeak (initService (mkService exApp)) () "weather today" rfl
      (by decide)).1.1,
   (C4_textQueryNoLeak (initService (mkService exApp)) () "weather today" rfl
      (by decide)).2.2⟩

/-- C9: the end-conversation host command with no active session is a
safe no-op — no exception, no effect at all (in particular no
notification); with an active session it signals end on exactly that
conversation and clears the active-session reference. -/
theorem C9_endConversationCommand (st : ServiceState) :
    (st.conversation = none →
      endConversationCommand st = ⟨{ st with conversation := none }, [], none⟩)
    ∧ (∀ c, st.conversation = some c →
        (endConversationCommand st).effects = [Effect.convEnd c]
        ∧ (endConversationCommand st).state.conversation = none
        ∧ (endConversationCommand st).thrown = none) := by
  constructor
  · intro hn
    simp [endConversationCommand, hn]
  · intro c hc
    simp [endConversationCommand, hc]

/-- C9 witness: on the freshly constructed service, with no active
session, the end-conversation command produces no effect and no
exception; on a state with active conversation 7 it signals end and
clears the reference. -/
theorem C9_endConversationCommand_witness :
    endConversationCommand (mkService exApp)
      = ⟨{ mkService exApp with conversation := none }, [], none⟩
    ∧ (endConversationCommand exActiveState).effects = [Effect.convEnd 7]
    ∧ (endConversationCommand exActiveState).state.conversation = none :=
  ⟨(C9_endConversationCommand (mkService exApp)).1 rfl,
   ((C9_endConversationCommand exActiveState).2 7 rfl).1,
   ((C9_endConversationCommand exActiveState).2 7 rfl).2.1⟩

/-- C10: when the adapter was never constructed, handling the inbound
invoke command first sends the stop-audio-playback notification and
then aborts on the uninitialized error from `invokeAssistant`: the
handler onQuery is never called and no start command is issued, so the
first of the three documented effects occurs while the other two do
not. -/
theorem C10_invokeCommandNotAtomic (h : HandlerSpec) (st : ServiceState) (q : Option String)
    (hun : st.assistantApiDelegate = none) :
    (invokeCommand h st q).effects
        = [Effect.send "assistant:stopAudioResponsePlayback" Payload.unit]
    ∧ (invokeCommand h st q).thrown = some uninitializedMessage
    ∧ (∀ s, Effect.call (HandlerCall.onQuery s) ∉ (invokeCommand h st q).effects)
    ∧ (∀ c, Effect.start c ∉ (invokeCommand h st q).effects)
    ∧ (invokeCommand h st q).state = st := by
  simp [invokeCommand, invokeAssistant, hun]

/-- C10 witness: on the never initialized service at a concrete query,
the invoke command stops playback, throws, and performs neither of the
two remaining effects. -/
theorem C10_invokeCommandNotAtomic_witness :
    (invokeCommand noThrow (mkService exApp) (some "hi")).effects
        = [Effect.send "assistant:stopAudioResponsePlayback" Payload.unit]
    ∧ (invokeCommand noThrow (mkService exApp) (some "hi")).thrown
        = some uninitializedMessage :=
  ⟨(C10_invokeCommandNotAtomic noThrow (mkService exApp) (some "hi") rfl).1,
   (C10_invokeCommandNotAtomic noThrow (mkService exApp) (some "hi") rfl).2.1⟩

/-- C1 counterexample: on a concrete state with active conversation 7,
the adapter "ended" event leaves the conversation reference set — the
listener body never assigns the field — refuting the claim that after
an "ended" adapter event no active session is retained. -/
theorem C1_endedRetainsReference :
    (dispatchConvEvent exApp noThrow exActiveState
        (ConvEvent.ended none false)).state.conversation ≠ none := by
  decide

/-- C1 amended: the conversation reference is set by the adapter
"started" event and cleared by the host end-conversation command; the
adapter "ended" event itself changes no state, so the reference stays
set until a host end-conversation command or the next "started" event
overwrites it. -/
theorem C1_lifecycleReference (app : AppConfig) (h : HandlerSpec) (st : ServiceState)
    (conv : Nat) (err : Option String) (sc : Bool) :
    (handleConversation st conv).conversation = some conv
    ∧ (endConversationCommand st).state.conversation = none
    ∧ (dispatchConvEvent app h st (ConvEvent.ended err sc)).state = st := by
  refine ⟨rfl, ?_, ?_⟩
  · cases hc : st.conversation <;> simp [endConversationCommand, hc]
  · cases hh : h HandlerCall.onConversationEnded <;>
      cases hsc : sc && app.enableMicOnImmediateResponse <;>
        cases herr : err <;>
          simp [dispatchConvEvent, hh, hsc]

/-- C2: for every adapter "ended" event, the listener sends exactly one
conversation-ended notification and performs exactly one
onConversationEnded handler call; the error log line appears exactly
when an error is present, and the error itself is non-fatal — the only
exception that can escape is the one thrown by the handler; when the
handler returns normally, the start-microphone notification is sent
exactly once when shouldContinue and the auto-continue configuration
flag both hold and not at all otherwise. -/
theorem C2_endedListener (app : AppConfig) (h : HandlerSpec) (st : ServiceState)
    (err : Option String) (sc : Bool) :
    countSend "assistant:conversationEnded"
        (dispatchConvEvent app h st (ConvEvent.ended err sc)).effects = 1
    ∧ countCall HandlerCall.onConversationEnded
        (dispatchConvEvent app h st (ConvEvent.ended err sc)).effects = 1
    ∧ (Effect.logError ∈ (dispatchConvEvent app h st (ConvEvent.ended err sc)).effects
        ↔ err.isSome = true)
    ∧ (dispatchConvEvent app h st (ConvEvent.ended err sc)).thrown
        = h HandlerCall.onConversationEnded
    ∧ (h HandlerCall.onConversationEnded = none →
        countSend "assistant:startMic"
            (dispatchConvEvent app h st (ConvEvent.ended err sc)).effects
          = if sc && app.enableMicOnImmediateResponse then 1 else 0) := by
  cases hh : h HandlerCall.onConversationEnded <;>
    cases hsc : sc && app.enableMicOnImmediateResponse <;>
      cases herr : err <;>
        simp +decide [dispatchConvEvent, hh, hsc, countSend, countCall]

/-- C2 witness: on a concrete "ended" event carrying an error, with
shouldContinue true, auto-continue enabled and a non-throwing handler,
the listener sends one conversation-ended notification, performs one
handler call, and sends one start-microphone notification. -/
theorem C2_endedListener_witness :
    countSend "assistant:conversationEnded"
        (dispatchConvEvent exApp noThrow exActiveState
          (ConvEvent.ended (some "err") true)).effects = 1
    ∧ countSend "assistant:startMic"
        (dispatchConvEvent exApp noThrow exActiveState
          (ConvEvent.ended (some "err") true)).effects = 1 := by
  refine ⟨(C2_endedListener exApp noThrow exActiveState (some "err") true).1, ?_⟩
  have h2 := (C2_endedListener exApp noThrow exActiveState (some "err") true).2.2.2.2 rfl
  simpa [exApp] using h2

/-- C3: every transcription event sends exactly one transcription
notification carrying the transcription object; the onQuery handler is
called exactly once with the transcribed text when done is true, is not
called at all when done is false, and is never called with any other
text. -/
theorem C3_transcriptionListener (app : AppConfig) (h : HandlerSpec) (st : ServiceState)
    (t : TranscriptionObject) :
    countSend "assistant:transcription"
        (dispatchConvEvent app h st (ConvEvent.transcription t)).effects = 1
    ∧ Effect.send "assistant:transcription" (Payload.transcription t)
        ∈ (dispatchConvEvent app h st (ConvEvent.transcription t)).effects
    ∧ (t.done = true →
        countCall (HandlerCall.onQuery t.transcription)
          (dispatchConvEvent app h st (ConvEvent.transcription t)).effects = 1)
    ∧ (t.done = false →
        ∀ s, Effect.call (HandlerCall.onQuery s)
          ∉ (dispatchConvEvent app h st (ConvEvent.transcription t)).effects)
    ∧ (∀ s, Effect.call (HandlerCall.onQuery s)
          ∈ (dispatchConvEvent app h st (ConvEvent.transcription t)).effects
        → s = t.transcription) := by
  cases hd : t.done <;>
    simp +decide [dispatchConvEvent, hd, countSend, countCall]

/-- C3 witness: a concrete final transcription (done true) sends one
transcription notification and yields exactly one onQuery call with the
transcribed text. -/
theorem C3_transcriptionListener_witness :
    countSend "assistant:transcription"
        (dispatchConvEvent exApp noThrow exActiveState
          (ConvEvent.transcription ⟨"turn on lights", true⟩)).effects = 1
    ∧ countCall (HandlerCall.onQuery "turn on lights")
        (dispatchConvEvent exApp noThrow exActiveState
          (ConvEvent.transcription ⟨"turn on lights", true⟩)).effects = 1 :=
  ⟨(C3_transcriptionListener exApp noThrow exActiveState ⟨"turn on lights", true⟩).1,
   (C3_transcriptionListener exApp noThrow exActiveState ⟨"turn on lights", true⟩).2.2.1 rfl⟩

/-- C6 counterexample: with a concrete handler set whose audio handler
throws, a concrete audio-data event on an active conversation lets the
exception escape the relay listener — refuting the claim that a
throwing handler exception does not propagate out of the event
relay. -/
theorem C6_handlerExceptionEscapes :
    (dispatchConvEvent exApp exThrowHandler exActiveState
        (ConvEvent.audioData [0])).thrown ≠ none := by
  decide

/-- C6 amended: the relay listeners install no exception guard — for
every adapter-originated event and every handler behaviour, each
handler call a relay listener performs has its outcome escape the
listener unchanged, so a throwing handler propagates its exception
uncaught out of the relay; a listener that performs no handler call
throws nothing of its own; and the session state is unaffected by every
relay listener. -/
theorem C6_relayNoCatch (app : AppConfig) (h : HandlerSpec) (st : ServiceState)
    (ev : ConvEvent) :
    (dispatchConvEvent app h st ev).state = st
    ∧ (∀ c, Effect.call c ∈ (dispatchConvEvent app h st ev).effects →
        (dispatchConvEvent app h st ev).thrown = h c)
    ∧ ((∀ c, Effect.call c ∉ (dispatchConvEvent app h st ev).effects) →
        (dispatchConvEvent app h st ev).thrown = none) := by
  cases ev with
  | audioData d =>
    refine ⟨rfl, ?_, ?_⟩
    · intro c hc
      simp [dispatchConvEvent] at hc
      rw [hc]
      rfl
    · intro hno
      exact ((hno (HandlerCall.onAudioData d)) (by simp [dispatchConvEvent])).elim
  | transcription t =>
    cases hd : t.done with
    | false =>
      refine ⟨by simp [dispatchConvEvent, hd], ?_, fun _ => by simp [dispatchConvEvent, hd]⟩
      intro c hc
      simp [dispatchConvEvent, hd] at hc
    | true =>
      refine ⟨by simp [dispatchConvEvent, hd], ?_, ?_⟩
      · intro c hc
        simp [dispatchConvEvent, hd] at hc
        rw [hc]
        simp [dispatchConvEvent, hd]
      · intro hno
        exact ((hno (HandlerCall.onQuery t.transcription))
          (by simp [dispatchConvEvent, hd])).elim
  | screenData sd =>
    refine ⟨rfl, ?_, ?_⟩
    · intro c hc
      simp [dispatchConvEvent] at hc
      rw [hc]
      rfl
    · intro hno
      exact ((hno (HandlerCall.onScreenData (bufToString sd.data)))
        (by simp [dispatchConvEvent])).elim
  | endOfUtterance =>
    refine ⟨rfl, ?_, fun _ => rfl⟩
    intro c hc
    simp [dispatchConvEvent] at hc
  | ended err sc =>
    have hmem : Effect.call HandlerCall.onConversationEnded
        ∈ (dispatchConvEvent app h st (ConvEvent.ended err sc)).effects := by
      cases hh : h HandlerCall.onConversationEnded <;>
        cases herr : err <;>
          cases hsc : sc && app.enableMicOnImmediateResponse <;>
            simp [dispatchConvEvent, hh, hsc]
    have hthr : (dispatchConvEvent app h st (ConvEvent.ended err sc)).thrown
        = h HandlerCall.onConversationEnded := by
      cases hh : h HandlerCall.onConversationEnded <;>
        cases herr : err <;>
          cases hsc : sc && app.enableMicOnImmediateResponse <;>
            simp [dispatchConvEvent, hh, hsc]
    have hst : (dispatchConvEvent app h st (ConvEvent.ended err sc)).state = st := by
      cases hh : h HandlerCall.onConversationEnded <;>
        cases herr : err <;>
          cases hsc : sc && app.enableMicOnImmediateResponse <;>
            simp [dispatchConvEvent, hh, hsc]
    refine ⟨hst, ?_, ?_⟩
    · intro c hc
      have hceq : c = HandlerCall.onConversationEnded := by
        cases hh : h HandlerCall.onConversationEnded <;>
          cases herr : err <;>
            cases hsc : sc && app.enableMicOnImmediateResponse <;>
              simp [dispatchConvEvent, hh, hsc] at hc <;>
                exact hc
      rw [hceq]
      exact hthr
    · intro hno
      exact ((hno HandlerCall.onConversationEnded) hmem).elim
  | error e =>
    refine ⟨rfl, ?_, fun _ => rfl⟩
    intro c hc
    simp [dispatchConvEvent] at hc

/-- C6 amended witness: at a concrete event and a concrete throwing
handler, the audio-data listener performed the handler call and its
exception escaped unchanged, with the state untouched. -/
theorem C6_relayNoCatch_witness :
    (dispatchConvEvent exApp exThrowHandler exActiveState
        (ConvEvent.audioData [0])).state = exActiveState
    ∧ (dispatchConvEvent exApp exThrowHandler exActiveState
        (ConvEvent.audioData [0])).thrown
      = exThrowHandler (HandlerCall.onAudioData [0]) :=
  ⟨(C6_relayNoCatch exApp exThrowHandler exActiveState (ConvEvent.audioData [0])).1,
   (C6_relayNoCatch exApp exThrowHandler exActiveState (ConvEvent.audioData [0])).2.1
      (HandlerCall.onAudioData [0]) (by simp [dispatchConvEvent])⟩

/-- C7: for each OAuth prompt, the token-input relay publishes exactly
one show-OAuth-prompt notification carrying the authorization URL and
registers exactly one subscription on the inbound oauth-code channel;
over any sequence of submitted codes the validation callback is invoked
exactly once, with the first submitted code, and never a second time
for the same prompt subscription. -/
theorem C7_oauthRelay (url : String) (c : String) (rest : List String) :
    countSend "assistant:showOauthTokenPrompt" (tokenInputHandler url) = 1
    ∧ Effect.send "assistant:showOauthTokenPrompt" (Payload.oauth url)
        ∈ tokenInputHandler url
    ∧ countSubscribe "assistant:oauthCode" (tokenInputHandler url) = 1
    ∧ oauthCodeDeliveries (c :: rest) = [c] := by
  refine ⟨?_, ?_, ?_, rfl⟩ <;>
    simp +decide [tokenInputHandler, countSend, countSubscribe]

/-- C8: for every sequence of audio-data events, with handlers that do
not throw on audio, the byte buffers delivered to onAudioData equal, in
order, the byte buffers received from the adapter — a pure pass-through
with no reordering, no drops, and no reassembly. -/
theorem C8_audioPassThrough (app : AppConfig) (h : HandlerSpec) (st : ServiceState)
    (chunks : List (List Nat))
    (hok : ∀ b, h (HandlerCall.onAudioData b) = none) :
    audioCallArgs (dispatchSeq app h st (chunks.map ConvEvent.audioData)).1 = chunks := by
  induction chunks generalizing st with
  | nil => rfl
  | cons d rest ih =>
    have hstep : dispatchConvEvent app h st (ConvEvent.audioData d)
        = ⟨st, [Effect.call (HandlerCall.onAudioData d)], none⟩ := by
      simp [dispatchConvEvent, hok d]
    simp [dispatchSeq, hstep, audioCallArgs, List.filterMap_append] at ih ⊢
    exact ih st

/-- C8 witness: a concrete three-chunk audio stream is delivered
unchanged and in order. -/
theorem C8_audioPassThrough_witness :
    audioCallArgs (dispatchSeq exApp noThrow exActiveState
        ([[0, 1], [2], [3, 4, 5]].map ConvEvent.audioData)).1
      = [[0, 1], [2], [3, 4, 5]] :=
  C8_audioPassThrough exApp noThrow exActiveState [[0, 1], [2], [3, 4, 5]]
    (fun _ => rfl)
